import Mathlib

/-!
Shallow embedding of `src/scripts/commitSolutionFiles.js` (LeetHub-3.0-custom).

The source is a set of sequential async helpers around GitHub's Git Data REST
API, orchestrated by `commitSolutionFiles`.  Each helper performs exactly one
`fetch`; we model the remote as an oracle mapping a structured request (the
method, URL parameters and JSON body fields the code actually sends) to an
outcome: either the fetch resolves and the oracle supplies the single string
field the code extracts from the parsed JSON, or the fetch rejects, which the
code never catches, so the rejection propagates.  A run therefore produces a
result (`Except`), the ordered trace of issued requests, and the final local
storage.
-/

/-- One input file of the orchestrator: `{ filename, content }`. -/
structure FileInput where
  filename : String
  content : String
deriving DecidableEq, Repr

/-- The single parameter object of `commitSolutionFiles` (source lines 134-135). -/
structure Params where
  repo : String
  branch : String
  problemName : String
  directory : String
  files : List FileInput
  difficulty : String
  commitMsg : String
deriving DecidableEq, Repr

/-- One element of the `tree` array sent to the tree-create endpoint,
built at source lines 152-157: `{ path, mode, type, sha }`. -/
structure FileEntry where
  path : String
  mode : String
  type : String
  sha : String
deriving DecidableEq, Repr

/-- A persisted stats record; the source (line 180) writes its
`lastCommitSha` field.  `none` models the field being absent. -/
structure StatsRecord where
  lastCommitSha : Option String
deriving DecidableEq, Repr

/-- The local key-value store (`chrome.storage.local`): the `leethub_token`
key (absent = `none`) and the `stats` object, keyed by problem name. -/
structure Storage where
  leethub_token : Option String
  stats : List (String × StatsRecord)
deriving DecidableEq, Repr

/-- A network request, as the code assembles it: the constructor identifies
the endpoint (method and URL shape) and the arguments are exactly the URL
parameters and JSON body fields the source puts into the `fetch` call.
For `refUpdate` the body is `{ sha }` (source line 107); `force` records an
optional `force` key of that body, which the source never includes. -/
inductive Request where
  | refRead (repo branch token : String)
  | blobCreate (repo content encoding token : String)
  | commitRead (repo sha token : String)
  | treeCreate (repo baseTree : String) (tree : List FileEntry) (token : String)
  | commitCreate (repo message treeSha : String) (parents : List String) (token : String)
  | refUpdate (repo branch sha : String) (force : Option Bool) (token : String)
deriving DecidableEq, Repr

/-- Outcome of one `fetch`: the promise resolves and the remote's JSON
response projects (via the field access the code performs) to `body`, or
the promise rejects. -/
inductive FetchOutcome where
  | ok (body : String)
  | reject
deriving DecidableEq, Repr

/-- The remote API, as a deterministic oracle from requests to outcomes. -/
abbrev Oracle := Request → FetchOutcome

/-- The body of a resolved outcome (`""` for a rejection; only used where
resolution is already known). -/
def FetchOutcome.sha : FetchOutcome → String
  | .ok body => body
  | .reject => ""

/-- The two failure modes of the orchestrator: the local token check at
source line 138 (`throw new Error('leethub token is undefined')`), and an
uncaught `fetch` rejection at any later step. -/
inductive JsError where
  | missingToken
  | fetchRejected
deriving DecidableEq, Repr

instance {ε α : Type} [DecidableEq ε] [DecidableEq α] : DecidableEq (Except ε α)
  | .ok a, .ok b => if h : a = b then .isTrue (by rw [h]) else .isFalse (by simp [h])
  | .ok _, .error _ => .isFalse (by simp)
  | .error _, .ok _ => .isFalse (by simp)
  | .error a, .error b => if h : a = b then .isTrue (by rw [h]) else .isFalse (by simp [h])

/-- The observable effect of one invocation of the orchestrator: its
result, the ordered list of network requests it issued (a rejecting fetch
was still issued, so it appears in the trace), and the final storage. -/
structure RunResult where
  result : Except JsError String
  trace : List Request
  storage : Storage
deriving DecidableEq, Repr

/-! ### The content encoding `btoa(unescape(encodeURIComponent(content)))`

`encodeURIComponent` percent-encodes the UTF-8 bytes of the string and
`unescape` turns each `%XX` back into the character `XX`, so their
composition maps a string to the string of its UTF-8 bytes; `btoa` then
base64-encodes those bytes.  We model the composite as base64 over the
UTF-8 byte sequence of the content, bytes as `Nat` values below 256. -/

/-- UTF-8 encoding of one Unicode code point (a `Nat` below 0x110000). -/
def utf8EncodeChar (n : Nat) : List Nat :=
  if n < 0x80 then [n]
  else if n < 0x800 then [0xC0 + n / 64, 0x80 + n % 64]
  else if n < 0x10000 then [0xE0 + n / 4096, 0x80 + n / 64 % 64, 0x80 + n % 64]
  else [0xF0 + n / 262144, 0x80 + n / 4096 % 64, 0x80 + n / 64 % 64, 0x80 + n % 64]

/-- UTF-8 byte sequence of a string. -/
def utf8Encode (s : String) : List Nat :=
  s.data.foldr (fun c acc => utf8EncodeChar c.toNat ++ acc) []

/-- The base64 alphabet, indexed 0-63. -/
def b64Alphabet : List Char :=
  "ABCDEFGHIJKLMNOPQRSTUVWXYZabcdefghijklmnopqrstuvwxyz0123456789+/".data

/-- Character for a sextet. -/
def b64Char (n : Nat) : Char := b64Alphabet.getD n 'A'

/-- Base64 encoding of a byte list, three bytes to four characters, with
`=` padding, exactly as `btoa` produces it. -/
def b64EncodeChunks : List Nat → List Char
  | [] => []
  | [b0] => [b64Char (b0 / 4), b64Char (b0 % 4 * 16), '=', '=']
  | [b0, b1] => [b64Char (b0 / 4), b64Char (b0 % 4 * 16 + b1 / 16), b64Char (b1 % 16 * 4), '=']
  | b0 :: b1 :: b2 :: rest =>
      b64Char (b0 / 4) :: b64Char (b0 % 4 * 16 + b1 / 16) ::
      b64Char (b1 % 16 * 4 + b2 / 64) :: b64Char (b2 % 64) :: b64EncodeChunks rest

/-- `btoa` on a byte list. -/
def btoaBase64 (bytes : List Nat) : String := String.mk (b64EncodeChunks bytes)

/-- The composite `btoa(unescape(encodeURIComponent(content)))` applied at
source line 150. -/
def encodeContent (content : String) : String := btoaBase64 (utf8Encode content)

/-- Index of a character in the base64 alphabet. -/
def b64Index (c : Char) : Option Nat := b64Alphabet.indexOf? c

/-- Base64 decoding, inverse of `b64EncodeChunks`: four characters to three
bytes, with padding handling. -/
def b64DecodeChunks : List Char → Option (List Nat)
  | [] => some []
  | c0 :: c1 :: c2 :: c3 :: rest =>
      match b64Index c0, b64Index c1 with
      | some s0, some s1 =>
          if c2 = '=' then
            if c3 = '=' ∧ rest = [] then some [s0 * 4 + s1 / 16] else none
          else
            match b64Index c2 with
            | some s2 =>
                if c3 = '=' then
                  if rest = [] then some [s0 * 4 + s1 / 16, s1 % 16 * 16 + s2 / 4] else none
                else
                  match b64Index c3 with
                  | some s3 =>
                      (b64DecodeChunks rest).map
                        (fun bs => (s0 * 4 + s1 / 16) :: (s1 % 16 * 16 + s2 / 4) ::
                          (s2 % 4 * 64 + s3) :: bs)
                  | none => none
            | none => none
      | _, _ => none
  | _ => none

/-- Base64 decoding of a string to bytes. -/
def base64Decode (s : String) : Option (List Nat) := b64DecodeChunks s.data

/-- UTF-8 decoding of a byte list to code points, one byte at a time.
The first argument is the decoder state: `none` between characters, or
`some (acc, need)` in the middle of a multi-byte character whose partial
value is `acc` with `need` continuation bytes still expected. -/
def utf8Run : Option (Nat × Nat) → List Nat → Option (List Nat)
  | none, [] => some []
  | some _, [] => none
  | none, b :: bs =>
      if b < 0x80 then (utf8Run none bs).map (b :: ·)
      else if b < 0xC0 then none
      else if b < 0xE0 then utf8Run (some (b - 0xC0, 1)) bs
      else if b < 0xF0 then utf8Run (some (b - 0xE0, 2)) bs
      else utf8Run (some (b - 0xF0, 3)) bs
  | some (acc, need), b :: bs =>
      if 0x80 ≤ b ∧ b < 0xC0 then
        if need = 1 then (utf8Run none bs).map ((acc * 64 + (b - 0x80)) :: ·)
        else utf8Run (some (acc * 64 + (b - 0x80), need - 1)) bs
      else none

/-- UTF-8 decoding of a byte list to code points. -/
def utf8Decode (bs : List Nat) : Option (List Nat) := utf8Run none bs

/-- Decode a base64 blob payload back to a string: base64 to bytes, UTF-8
bytes to code points, code points to characters. -/
def decodeContent (payload : String) : Option String :=
  match base64Decode payload with
  | none => none
  | some bytes =>
      match utf8Decode bytes with
      | none => none
      | some points => some (String.mk (points.map Char.ofNat))

/-! ### The program: one Lean definition per source function

Each helper returns the list of requests its fetches issued together with
an `Except` result; `commitSolutionFiles` threads them in source order. -/

/-- Embeds `getLatestCommitSHA` (source lines 8-15): GET the ref endpoint
for the branch, return `data.object.sha`. -/
def getLatestCommitSHA (o : Oracle) (repo branch token : String) :
    List Request × Except JsError String :=
  let req := Request.refRead repo branch token
  match o req with
  | .ok sha => ([req], .ok sha)
  | .reject => ([req], .error .fetchRejected)

/-- Embeds `createBlob` (source lines 24-41): POST to the blob endpoint a
body whose `content` field is the `content` argument passed through
verbatim and whose `encoding` field is the literal `"base64"`; return
`data.sha`. -/
def createBlob (o : Oracle) (repo content token : String) :
    List Request × Except JsError String :=
  let req := Request.blobCreate repo content "base64" token
  match o req with
  | .ok sha => ([req], .ok sha)
  | .reject => ([req], .error .fetchRejected)

/-- Embeds `createTree` (source lines 51-67): POST `{ base_tree, tree }`,
return `data.sha`. -/
def createTree (o : Oracle) (repo baseTreeSha : String) (files : List FileEntry)
    (token : String) : List Request × Except JsError String :=
  let req := Request.treeCreate repo baseTreeSha files token
  match o req with
  | .ok sha => ([req], .ok sha)
  | .reject => ([req], .error .fetchRejected)

/-- Embeds `createCommit` (source lines 78-95): POST
`{ message, tree, parents: [parentSha] }`, return `data.sha`. -/
def createCommit (o : Oracle) (repo message treeSha parentSha token : String) :
    List Request × Except JsError String :=
  let req := Request.commitCreate repo message treeSha [parentSha] token
  match o req with
  | .ok sha => ([req], .ok sha)
  | .reject => ([req], .error .fetchRejected)

/-- Embeds `updateRef` (source lines 105-116): PATCH the ref endpoint with
body `{ sha: newCommitSha }` — no `force` key — and `await` the fetch
without reading the response, so a resolved response of any content is
discarded and only a rejection propagates. -/
def updateRef (o : Oracle) (repo branch newCommitSha token : String) :
    List Request × Except JsError Unit :=
  let req := Request.refUpdate repo branch newCommitSha none token
  match o req with
  | .ok _ => ([req], .ok ())
  | .reject => ([req], .error .fetchRejected)

/-- Modelled from the spec: `getAndInitializeStats` is called at source
line 178 but not defined under `src/`.  Spec section 4.6 step 8 says the
orchestrator must "load-or-initialize a stats record for the problem name",
and section 3 describes the persisted stats as a mapping keyed by problem
name holding at least `lastCommitSha`; so this returns the record stored
for the problem name, or a fresh record (no `lastCommitSha` yet) when none
exists. -/
def getAndInitializeStats (st : Storage) (problemName : String) : StatsRecord :=
  match st.stats.lookup problemName with
  | some record => record
  | none => { lastCommitSha := none }

/-- Persisting the stats object (source line 181, with the write-back
shape of spec section 4.6 step 8: the mutated record is stored for the
problem name and the whole mapping persisted). -/
def setStat (stats : List (String × StatsRecord)) (problemName : String)
    (record : StatsRecord) : List (String × StatsRecord) :=
  (problemName, record) :: stats.filter (fun kv => kv.1 ≠ problemName)

/-- Embeds the `for (const file of files)` loop of `commitSolutionFiles`
(source lines 144-158): per file, in list order, build the path
`directory + "/" + filename`, encode the content, create a blob, and
append `{ path, mode: "100644", type: "blob", sha }` to the entry list. -/
def blobLoop (o : Oracle) (repo token directory : String) :
    List FileInput → List Request × Except JsError (List FileEntry)
  | [] => ([], .ok [])
  | file :: rest =>
      let filePath := directory ++ "/" ++ file.filename
      let encodedContent := encodeContent file.content
      let step := createBlob o repo encodedContent token
      match step.2 with
      | .error e => (step.1, .error e)
      | .ok blobSha =>
          let next := blobLoop o repo token directory rest
          (step.1 ++ next.1,
           next.2.map (fun entries =>
             { path := filePath, mode := "100644", type := "blob", sha := blobSha } :: entries))

/-- Embeds `commitSolutionFiles` (source lines 134-184).  The token check
is the JavaScript falsiness test `if (!token) throw ...` on the value read
from storage: it fires when the key is absent or holds a falsy string,
i.e. the empty string. -/
def commitSolutionFiles (o : Oracle) (st : Storage) (p : Params) : RunResult :=
  match st.leethub_token with
  | none => { result := .error .missingToken, trace := [], storage := st }
  | some token =>
      if token = "" then { result := .error .missingToken, trace := [], storage := st }
      else
        let step1 := getLatestCommitSHA o p.repo p.branch token
        match step1.2 with
        | .error e => { result := .error e, trace := step1.1, storage := st }
        | .ok latestCommitSha =>
            let step2 := blobLoop o p.repo token p.directory p.files
            match step2.2 with
            | .error e => { result := .error e, trace := step1.1 ++ step2.1, storage := st }
            | .ok fileEntries =>
                let commitReadReq := Request.commitRead p.repo latestCommitSha token
                match o commitReadReq with
                | .reject =>
                    { result := .error .fetchRejected,
                      trace := step1.1 ++ step2.1 ++ [commitReadReq], storage := st }
                | .ok baseTreeSha =>
                    let step4 := createTree o p.repo baseTreeSha fileEntries token
                    match step4.2 with
                    | .error e =>
                        { result := .error e,
                          trace := step1.1 ++ step2.1 ++ [commitReadReq] ++ step4.1,
                          storage := st }
                    | .ok newTreeSha =>
                        let step5 := createCommit o p.repo p.commitMsg newTreeSha
                          latestCommitSha token
                        match step5.2 with
                        | .error e =>
                            { result := .error e,
                              trace := step1.1 ++ step2.1 ++ [commitReadReq] ++ step4.1 ++ step5.1,
                              storage := st }
                        | .ok newCommitSha =>
                            let step6 := updateRef o p.repo p.branch newCommitSha token
                            match step6.2 with
                            | .error e =>
                                { result := .error e,
                                  trace := step1.1 ++ step2.1 ++ [commitReadReq] ++ step4.1 ++
                                    step5.1 ++ step6.1,
                                  storage := st }
                            | .ok () =>
                                let stats := getAndInitializeStats st p.problemName
                                let stats' := { stats with lastCommitSha := some newCommitSha }
                                { result := .ok newCommitSha,
                                  trace := step1.1 ++ step2.1 ++ [commitReadReq] ++ step4.1 ++
                                    step5.1 ++ step6.1,
                                  storage := { st with
                                    stats := setStat st.stats p.problemName stats' } }

/-! ### Request classifiers and projections used in the claim statements. -/

/-- True exactly for ref-read requests. -/
def Request.isRefRead : Request → Bool
  | .refRead _ _ _ => true
  | _ => false

/-- True exactly for blob-create requests. -/
def Request.isBlobCreate : Request → Bool
  | .blobCreate _ _ _ _ => true
  | _ => false

/-- True exactly for commit-read requests. -/
def Request.isCommitRead : Request → Bool
  | .commitRead _ _ _ => true
  | _ => false

/-- True exactly for tree-create requests. -/
def Request.isTreeCreate : Request → Bool
  | .treeCreate _ _ _ _ => true
  | _ => false

/-- True exactly for commit-create requests. -/
def Request.isCommitCreate : Request → Bool
  | .commitCreate _ _ _ _ _ => true
  | _ => false

/-- True exactly for ref-update requests. -/
def Request.isRefUpdate : Request → Bool
  | .refUpdate _ _ _ _ _ => true
  | _ => false

/-- The `force` key of a ref-update body (`none` elsewhere and when the
key is absent). -/
def Request.forceFlag : Request → Option Bool
  | .refUpdate _ _ _ force _ => force
  | _ => none

/-- The `content` body field of a blob-create request. -/
def Request.blobContent : Request → Option String
  | .blobCreate _ content _ _ => some content
  | _ => none

/-- The `parents` body field of a commit-create request. -/
def Request.parentShas : Request → Option (List String)
  | .commitCreate _ _ _ parents _ => some parents
  | _ => none

/-- The tree entries a successful run sends to the tree-create endpoint:
one entry per input file, in input order, whose blob SHA is whatever the
oracle answered for that file's blob-create request. -/
def entriesOf (o : Oracle) (p : Params) (token : String) : List FileEntry :=
  p.files.map (fun f =>
    { path := p.directory ++ "/" ++ f.filename, mode := "100644", type := "blob",
      sha := (o (Request.blobCreate p.repo (encodeContent f.content) "base64" token)).sha })

/-! ### Concrete fixtures for witnesses and counterexamples. -/

/-- The two files of the spec's worked scenario (section 8). -/
def demoFiles : List FileInput :=
  [{ filename := "README.md", content := "# Hi" },
   { filename := "sol.py", content := "print(1)" }]

/-- The spec's worked scenario input. -/
def demoParams : Params :=
  { repo := "o/r", branch := "main", problemName := "p1", directory := "d",
    files := demoFiles, difficulty := "Easy", commitMsg := "msg" }

/-- A storage with a token present and empty stats. -/
def demoStorage : Storage := { leethub_token := some "tok", stats := [] }

/-- A remote returning a fixed SHA at each stage. -/
def demoOracle : Oracle := fun r =>
  match r with
  | .refRead _ _ _ => .ok "tipsha"
  | .blobCreate _ _ _ _ => .ok "blobsha"
  | .commitRead _ _ _ => .ok "basetreesha"
  | .treeCreate _ _ _ _ => .ok "newtreesha"
  | .commitCreate _ _ _ _ _ => .ok "newcommitsha"
  | .refUpdate _ _ _ _ _ => .ok "updated"

/-- Same remote, but every tree-create fetch rejects. -/
def rejectTreeOracle : Oracle := fun r =>
  match r with
  | .treeCreate _ _ _ _ => .reject
  | _ => demoOracle r

/-- Same remote, but every ref-update fetch rejects. -/
def rejectRefUpdateOracle : Oracle := fun r =>
  match r with
  | .refUpdate _ _ _ _ _ => .reject
  | _ => demoOracle r

/-- Same remote, but the ref-update resolves with a body reporting that
the update was rejected (e.g. a non-fast-forward error document). -/
def refUpdateRejectedBodyOracle : Oracle := fun r =>
  match r with
  | .refUpdate _ _ _ _ _ => .ok "422 update is not a fast forward"
  | _ => demoOracle r

/-! ### Round-trip of the content encoding. -/

/-- Every Unicode scalar value is below 0x110000. -/
theorem char_toNat_lt_110000 (c : Char) : c.toNat < 0x110000 := by
  have h := c.valid
  rcases h with h | ⟨_, h⟩ <;> simp [Char.toNat] <;> omega

/-- Looking a sextet's character back up recovers the sextet. -/
theorem b64Index_b64Char : ∀ n < 64, b64Index (b64Char n) = some n := by decide

/-- No sextet encodes to the padding character. -/
theorem b64Char_ne_pad : ∀ n < 64, b64Char n ≠ '=' := by decide

/-- Base64 decoding inverts base64 encoding on byte lists. -/
theorem b64DecodeChunks_encode (bs : List Nat) (h : ∀ b ∈ bs, b < 256) :
    b64DecodeChunks (b64EncodeChunks bs) = some bs := by
  induction bs using b64EncodeChunks.induct with
  | case1 => rfl
  | case2 b0 =>
      have hb0 : b0 < 256 := h b0 (by simp)
      have h1 : b0 / 4 < 64 := by omega
      have h2 : b0 % 4 * 16 < 64 := by omega
      simp [b64EncodeChunks, b64DecodeChunks, b64Index_b64Char _ h1, b64Index_b64Char _ h2]
      omega
  | case3 b0 b1 =>
      have hb0 : b0 < 256 := h b0 (by simp)
      have hb1 : b1 < 256 := h b1 (by simp)
      have h1 : b0 / 4 < 64 := by omega
      have h2 : b0 % 4 * 16 + b1 / 16 < 64 := by omega
      have h3 : b1 % 16 * 4 < 64 := by omega
      simp [b64EncodeChunks, b64DecodeChunks, b64Index_b64Char _ h1, b64Index_b64Char _ h2,
        b64Index_b64Char _ h3, b64Char_ne_pad _ h3]
      omega
  | case4 b0 b1 b2 rest ih =>
      have hb0 : b0 < 256 := h b0 (by simp)
      have hb1 : b1 < 256 := h b1 (by simp)
      have hb2 : b2 < 256 := h b2 (by simp)
      have h1 : b0 / 4 < 64 := by omega
      have h2 : b0 % 4 * 16 + b1 / 16 < 64 := by omega
      have h3 : b1 % 16 * 4 + b2 / 64 < 64 := by omega
      have h4 : b2 % 64 < 64 := by omega
      have ih' := ih (fun b hb => h b (by simp [hb]))
      simp [b64EncodeChunks, b64DecodeChunks, b64Index_b64Char _ h1, b64Index_b64Char _ h2,
        b64Index_b64Char _ h3, b64Index_b64Char _ h4, b64Char_ne_pad _ h3, b64Char_ne_pad _ h4,
        ih']
      refine ⟨by omega, by omega, by omega⟩

/-- The UTF-8 encoding of a valid code point is a list of bytes. -/
theorem utf8EncodeChar_lt (n : Nat) (hn : n < 0x110000) :
    ∀ b ∈ utf8EncodeChar n, b < 256 := by
  unfold utf8EncodeChar
  split_ifs <;> simp <;> omega

/-- The UTF-8 encoding of a string is a list of bytes. -/
theorem utf8Encode_lt (s : String) : ∀ b ∈ utf8Encode s, b < 256 := by
  unfold utf8Encode
  induction s.data with
  | nil => simp
  | cons c cs ih =>
      simp only [List.foldr_cons, List.mem_append]
      rintro b (hb | hb)
      · exact utf8EncodeChar_lt c.toNat (char_toNat_lt_110000 c) b hb
      · exact ih b hb

/-- Consuming the UTF-8 encoding of one code point from the byte stream
yields that code point and leaves the decoder between characters. -/
theorem utf8Run_append (n : Nat) (hn : n < 0x110000) (bs : List Nat) :
    utf8Run none (utf8EncodeChar n ++ bs) = (utf8Run none bs).map (n :: ·) := by
  unfold utf8EncodeChar
  split_ifs with h1 h2 h3
  · rw [List.cons_append, List.nil_append, utf8Run, if_pos h1]
  · rw [List.cons_append, List.cons_append, List.nil_append]
    rw [utf8Run, if_neg (by omega), if_neg (by omega), if_pos (by omega)]
    rw [utf8Run, if_pos (by omega), if_pos rfl]
    have : (0xC0 + n / 64 - 0xC0) * 64 + (0x80 + n % 64 - 0x80) = n := by omega
    rw [this]
  · rw [List.cons_append, List.cons_append, List.cons_append, List.nil_append]
    rw [utf8Run, if_neg (by omega), if_neg (by omega), if_neg (by omega), if_pos (by omega)]
    rw [utf8Run, if_pos (by omega), if_neg (by omega)]
    rw [utf8Run, if_pos (by omega), if_pos rfl]
    have : ((0xE0 + n / 4096 - 0xE0) * 64 + (0x80 + n / 64 % 64 - 0x80)) * 64 +
        (0x80 + n % 64 - 0x80) = n := by omega
    rw [this]
  · rw [List.cons_append, List.cons_append, List.cons_append, List.cons_append,
      List.nil_append]
    rw [utf8Run, if_neg (by omega), if_neg (by omega), if_neg (by omega), if_neg (by omega)]
    rw [utf8Run, if_pos (by omega), if_neg (by omega)]
    rw [utf8Run, if_pos (by omega), if_neg (by omega)]
    rw [utf8Run, if_pos (by omega), if_pos rfl]
    have : (((0xF0 + n / 262144 - 0xF0) * 64 + (0x80 + n / 4096 % 64 - 0x80)) * 64 +
        (0x80 + n / 64 % 64 - 0x80)) * 64 + (0x80 + n % 64 - 0x80) = n := by omega
    rw [this]

/-- UTF-8 decoding inverts UTF-8 encoding, giving the code points. -/
theorem utf8Decode_utf8Encode (s : String) :
    utf8Decode (utf8Encode s) = some (s.data.map Char.toNat) := by
  unfold utf8Decode utf8Encode
  induction s.data with
  | nil => rfl
  | cons c cs ih =>
      rw [List.foldr_cons, utf8Run_append c.toNat (char_toNat_lt_110000 c), ih]
      rfl

/-- Decoding the blob payload round-trips to the original content. -/
theorem decodeContent_encodeContent (s : String) :
    decodeContent (encodeContent s) = some s := by
  have h1 : base64Decode (encodeContent s) = some (utf8Encode s) := by
    unfold base64Decode encodeContent btoaBase64
    exact b64DecodeChunks_encode _ (utf8Encode_lt s)
  unfold decodeContent
  rw [h1]
  dsimp only
  rw [utf8Decode_utf8Encode s]
  dsimp only
  rw [List.map_map]
  simp [Function.comp_def]

/-! ### Shared structural lemmas about runs. -/

/-- What a successful pass of the blob-creation loop guarantees: its trace
is one blob-create per file in input order, each resolved by the remote,
and its entries are one per file with the oracle's blob SHA. -/
theorem blobLoop_ok {o : Oracle} {repo token directory : String} {files : List FileInput}
    {tr : List Request} {entries : List FileEntry}
    (h : blobLoop o repo token directory files = (tr, .ok entries)) :
    tr = files.map (fun f => Request.blobCreate repo (encodeContent f.content) "base64" token) ∧
    entries = files.map (fun f =>
      { path := directory ++ "/" ++ f.filename, mode := "100644", type := "blob",
        sha := (o (Request.blobCreate repo (encodeContent f.content) "base64" token)).sha }) ∧
    ∀ f ∈ files, ∃ s,
      o (Request.blobCreate repo (encodeContent f.content) "base64" token) = .ok s := by
  induction files generalizing tr entries with
  | nil =>
      simp only [blobLoop, Prod.mk.injEq] at h
      obtain ⟨h1, h2⟩ := h
      refine ⟨h1.symm, ?_, by simp⟩
      cases h2
      simp
  | cons f fs ih =>
      cases hreq : o (Request.blobCreate repo (encodeContent f.content) "base64" token) with
      | reject =>
          simp only [blobLoop, createBlob, hreq, Prod.mk.injEq] at h
          exact absurd h.2 (by simp)
      | ok s =>
          simp only [blobLoop, createBlob, hreq, Prod.mk.injEq] at h
          obtain ⟨h1, h2⟩ := h
          cases hrest : blobLoop o repo token directory fs with
          | mk tr2 r2 =>
              rw [hrest] at h1 h2
              cases r2 with
              | error e => simp [Except.map] at h2
              | ok es =>
                  simp only [Except.map] at h2
                  obtain ⟨htr2, hes, hall⟩ := ih hrest
                  cases h2
                  constructor
                  · simp [← h1, htr2]
                  constructor
                  · simp [hes, hreq, FetchOutcome.sha]
                  · intro g hg
                    rcases List.mem_cons.mp hg with hg | hg
                    · subst hg; exact ⟨s, hreq⟩
                    · exact hall g hg

/-- Full characterization of a successful run: the token was present and
non-empty, every fetch resolved, and the trace and final storage have the
canonical shape. -/
theorem run_ok_spec {o : Oracle} {st : Storage} {p : Params} {sha : String}
    (h : (commitSolutionFiles o st p).result = .ok sha) :
    ∃ token tip baseTree newTree,
      st.leethub_token = some token ∧ token ≠ "" ∧
      o (Request.refRead p.repo p.branch token) = .ok tip ∧
      (∀ f ∈ p.files, ∃ s,
        o (Request.blobCreate p.repo (encodeContent f.content) "base64" token) = .ok s) ∧
      o (Request.commitRead p.repo tip token) = .ok baseTree ∧
      o (Request.treeCreate p.repo baseTree (entriesOf o p token) token) = .ok newTree ∧
      o (Request.commitCreate p.repo p.commitMsg newTree [tip] token) = .ok sha ∧
      (∃ r, o (Request.refUpdate p.repo p.branch sha none token) = .ok r) ∧
      (commitSolutionFiles o st p).trace =
        Request.refRead p.repo p.branch token ::
        (p.files.map (fun f =>
          Request.blobCreate p.repo (encodeContent f.content) "base64" token) ++
         [Request.commitRead p.repo tip token,
          Request.treeCreate p.repo baseTree (entriesOf o p token) token,
          Request.commitCreate p.repo p.commitMsg newTree [tip] token,
          Request.refUpdate p.repo p.branch sha none token]) ∧
      (commitSolutionFiles o st p).storage =
        { st with stats := setStat st.stats p.problemName ({ getAndInitializeStats st p.problemName with lastCommitSha := some sha }) } := by
  cases htok : st.leethub_token with
  | none => simp [commitSolutionFiles, htok] at h
  | some token =>
  by_cases hemp : token = ""
  · simp [commitSolutionFiles, htok, hemp] at h
  cases h1 : o (Request.refRead p.repo p.branch token) with
  | reject => simp [commitSolutionFiles, htok, hemp, getLatestCommitSHA, h1] at h
  | ok tip =>
  cases hbl : blobLoop o p.repo token p.directory p.files with
  | mk tr2 r2 =>
  cases r2 with
  | error e =>
      simp [commitSolutionFiles, htok, hemp, getLatestCommitSHA, h1, hbl] at h
  | ok entries =>
  obtain ⟨htr2, hes, hall⟩ := blobLoop_ok hbl
  have hE : entriesOf o p token = entries := hes.symm
  cases h3 : o (Request.commitRead p.repo tip token) with
  | reject =>
      simp [commitSolutionFiles, htok, hemp, getLatestCommitSHA, h1, hbl, h3] at h
  | ok baseTree =>
  cases h4 : o (Request.treeCreate p.repo baseTree entries token) with
  | reject =>
      simp [commitSolutionFiles, htok, hemp, getLatestCommitSHA, h1, hbl, h3,
        createTree, h4] at h
  | ok newTree =>
  cases h5 : o (Request.commitCreate p.repo p.commitMsg newTree [tip] token) with
  | reject =>
      simp [commitSolutionFiles, htok, hemp, getLatestCommitSHA, h1, hbl, h3,
        createTree, h4, createCommit, h5] at h
  | ok newCommit =>
  cases h6 : o (Request.refUpdate p.repo p.branch newCommit none token) with
  | reject =>
      simp [commitSolutionFiles, htok, hemp, getLatestCommitSHA, h1, hbl, h3,
        createTree, h4, createCommit, h5, updateRef, h6] at h
  | ok r =>
  have hsha : newCommit = sha := by
    simp [commitSolutionFiles, htok, hemp, getLatestCommitSHA, h1, hbl, h3,
      createTree, h4, createCommit, h5, updateRef, h6] at h
    exact h
  subst hsha
  refine ⟨token, tip, baseTree, newTree, rfl, hemp, h1, hall, h3, ?_, h5, ⟨r, h6⟩, ?_, ?_⟩
  · rw [hE]; exact h4
  · rw [hE]
    simp [commitSolutionFiles, htok, hemp, getLatestCommitSHA, h1, hbl, h3,
      createTree, h4, createCommit, h5, updateRef, h6, htr2]
  · simp [commitSolutionFiles, htok, hemp, getLatestCommitSHA, h1, hbl, h3,
      createTree, h4, createCommit, h5, updateRef, h6]

/-- Every request the blob loop issues, even on a failing run, is a
blob-create whose content field is the encoded content of one of the
input files. -/
theorem blobLoop_trace_spec {o : Oracle} {repo token directory : String}
    {files : List FileInput} :
    ∀ r ∈ (blobLoop o repo token directory files).1, ∃ f ∈ files,
      r = Request.blobCreate repo (encodeContent f.content) "base64" token := by
  induction files with
  | nil => simp [blobLoop]
  | cons f fs ih =>
      intro r hr
      cases hreq : o (Request.blobCreate repo (encodeContent f.content) "base64" token) with
      | reject =>
          simp [blobLoop, createBlob, hreq] at hr
          exact ⟨f, by simp, hr⟩
      | ok s =>
          simp only [blobLoop, createBlob, hreq] at hr
          rcases List.mem_append.mp hr with hr | hr
          · rcases List.mem_singleton.mp hr with rfl
            exact ⟨f, by simp, rfl⟩
          · obtain ⟨g, hg, hrg⟩ := ih r hr
            exact ⟨g, by simp [hg], hrg⟩

/-- What a failed run guarantees: the storage is untouched, and the trace
contains no ref-update request — except that when the ref-update fetch
itself is the rejecting one, it is the final request of the trace. -/
theorem run_error_spec {o : Oracle} {st : Storage} {p : Params} {e : JsError}
    (h : (commitSolutionFiles o st p).result = .error e) :
    (commitSolutionFiles o st p).storage = st ∧
    ((∀ r ∈ (commitSolutionFiles o st p).trace, r.isRefUpdate = false) ∨
     ∃ pre req, (commitSolutionFiles o st p).trace = pre ++ [req] ∧
       req.isRefUpdate = true ∧ (∀ r ∈ pre, r.isRefUpdate = false) ∧ o req = .reject) := by
  cases htok : st.leethub_token with
  | none => simp [commitSolutionFiles, htok]
  | some token =>
  by_cases hemp : token = ""
  · simp [commitSolutionFiles, htok, hemp]
  cases h1 : o (Request.refRead p.repo p.branch token) with
  | reject =>
      refine ⟨by simp [commitSolutionFiles, htok, hemp, getLatestCommitSHA, h1], .inl ?_⟩
      simp [commitSolutionFiles, htok, hemp, getLatestCommitSHA, h1, Request.isRefUpdate]
  | ok tip =>
  cases hbl : blobLoop o p.repo token p.directory p.files with
  | mk tr2 r2 =>
  have htr2 : ∀ r ∈ tr2, ∃ f ∈ p.files,
      r = Request.blobCreate p.repo (encodeContent f.content) "base64" token := by
    have := @blobLoop_trace_spec o p.repo token p.directory p.files
    rw [hbl] at this
    exact this
  have htr2' : ∀ r ∈ tr2, r.isRefUpdate = false := by
    intro r hr
    obtain ⟨f, _, rfl⟩ := htr2 r hr
    rfl
  cases r2 with
  | error e2 =>
      refine ⟨by simp [commitSolutionFiles, htok, hemp, getLatestCommitSHA, h1, hbl], .inl ?_⟩
      simp only [commitSolutionFiles, htok, hemp, getLatestCommitSHA, h1, hbl]
      intro r hr
      simp at hr
      rcases hr with hr | hr
      · simp [hr, Request.isRefUpdate]
      · exact htr2' r hr
  | ok entries =>
  cases h3 : o (Request.commitRead p.repo tip token) with
  | reject =>
      refine ⟨by simp [commitSolutionFiles, htok, hemp, getLatestCommitSHA, h1, hbl, h3],
        .inl ?_⟩
      simp only [commitSolutionFiles, htok, hemp, getLatestCommitSHA, h1, hbl, h3]
      intro r hr
      simp at hr
      rcases hr with hr | hr | hr
      · simp [hr, Request.isRefUpdate]
      · exact htr2' r hr
      · simp [hr, Request.isRefUpdate]
  | ok baseTree =>
  cases h4 : o (Request.treeCreate p.repo baseTree entries token) with
  | reject =>
      refine ⟨by simp [commitSolutionFiles, htok, hemp, getLatestCommitSHA, h1, hbl, h3,
        createTree, h4], .inl ?_⟩
      simp only [commitSolutionFiles, htok, hemp, getLatestCommitSHA, h1, hbl, h3,
        createTree, h4]
      intro r hr
      simp at hr
      rcases hr with hr | hr | hr | hr
      · simp [hr, Request.isRefUpdate]
      · exact htr2' r hr
      · simp [hr, Request.isRefUpdate]
      · simp [hr, Request.isRefUpdate]
  | ok newTree =>
  cases h5 : o (Request.commitCreate p.repo p.commitMsg newTree [tip] token) with
  | reject =>
      refine ⟨by simp [commitSolutionFiles, htok, hemp, getLatestCommitSHA, h1, hbl, h3,
        createTree, h4, createCommit, h5], .inl ?_⟩
      simp only [commitSolutionFiles, htok, hemp, getLatestCommitSHA, h1, hbl, h3,
        createTree, h4, createCommit, h5]
      intro r hr
      simp at hr
      rcases hr with hr | hr | hr | hr | hr
      · simp [hr, Request.isRefUpdate]
      · exact htr2' r hr
      · simp [hr, Request.isRefUpdate]
      · simp [hr, Request.isRefUpdate]
      · simp [hr, Request.isRefUpdate]
  | ok newCommit =>
  cases h6 : o (Request.refUpdate p.repo p.branch newCommit none token) with
  | reject =>
      refine ⟨by simp [commitSolutionFiles, htok, hemp, getLatestCommitSHA, h1, hbl, h3,
        createTree, h4, createCommit, h5, updateRef, h6], .inr ?_⟩
      refine ⟨Request.refRead p.repo p.branch token ::
        (tr2 ++ [Request.commitRead p.repo tip token,
          Request.treeCreate p.repo baseTree entries token,
          Request.commitCreate p.repo p.commitMsg newTree [tip] token]),
        Request.refUpdate p.repo p.branch newCommit none token, ?_, rfl, ?_, h6⟩
      · simp [commitSolutionFiles, htok, hemp, getLatestCommitSHA, h1, hbl, h3,
          createTree, h4, createCommit, h5, updateRef, h6]
      · intro r hr
        simp at hr
        rcases hr with hr | hr | hr | hr | hr
        · simp [hr, Request.isRefUpdate]
        · exact htr2' r hr
        · simp [hr, Request.isRefUpdate]
        · simp [hr, Request.isRefUpdate]
        · simp [hr, Request.isRefUpdate]
  | ok r =>
      exfalso
      simp [commitSolutionFiles, htok, hemp, getLatestCommitSHA, h1, hbl, h3,
        createTree, h4, createCommit, h5, updateRef, h6] at h

/-- The blob loop only consults the oracle at non-ref-update requests. -/
theorem blobLoop_congr {o o' : Oracle} (hagree : ∀ r, r.isRefUpdate = false → o' r = o r)
    (repo token directory : String) (files : List FileInput) :
    blobLoop o' repo token directory files = blobLoop o repo token directory files := by
  induction files with
  | nil => rfl
  | cons f fs ih =>
      have hb := hagree (Request.blobCreate repo (encodeContent f.content) "base64" token) rfl
      simp only [blobLoop, createBlob, hb, ih]

/-- Changing only the bodies of resolved ref-update responses changes
nothing observable: the code never reads that response. -/
theorem run_congr {o o' : Oracle} (st : Storage) (p : Params)
    (hagree : ∀ r, r.isRefUpdate = false → o' r = o r)
    (hupd : ∀ r, r.isRefUpdate = true → ∃ b b', o r = .ok b ∧ o' r = .ok b') :
    commitSolutionFiles o' st p = commitSolutionFiles o st p := by
  cases htok : st.leethub_token with
  | none => simp [commitSolutionFiles, htok]
  | some token =>
  by_cases hemp : token = ""
  · simp [commitSolutionFiles, htok, hemp]
  have h1 := hagree (Request.refRead p.repo p.branch token) rfl
  cases hv1 : o (Request.refRead p.repo p.branch token) with
  | reject => simp [commitSolutionFiles, htok, hemp, getLatestCommitSHA, h1, hv1]
  | ok tip =>
  have hblc := blobLoop_congr hagree p.repo token p.directory p.files
  cases hbl : blobLoop o p.repo token p.directory p.files with
  | mk tr2 r2 =>
  rw [hbl] at hblc
  cases r2 with
  | error e2 =>
      simp [commitSolutionFiles, htok, hemp, getLatestCommitSHA, h1, hv1, hbl, hblc]
  | ok entries =>
  have h3 := hagree (Request.commitRead p.repo tip token) rfl
  cases hv3 : o (Request.commitRead p.repo tip token) with
  | reject =>
      simp [commitSolutionFiles, htok, hemp, getLatestCommitSHA, h1, hv1, hbl, hblc, h3, hv3]
  | ok baseTree =>
  have h4 := hagree (Request.treeCreate p.repo baseTree entries token) rfl
  cases hv4 : o (Request.treeCreate p.repo baseTree entries token) with
  | reject =>
      simp [commitSolutionFiles, htok, hemp, getLatestCommitSHA, h1, hv1, hbl, hblc, h3, hv3,
        createTree, h4, hv4]
  | ok newTree =>
  have h5 := hagree (Request.commitCreate p.repo p.commitMsg newTree [tip] token) rfl
  cases hv5 : o (Request.commitCreate p.repo p.commitMsg newTree [tip] token) with
  | reject =>
      simp [commitSolutionFiles, htok, hemp, getLatestCommitSHA, h1, hv1, hbl, hblc, h3, hv3,
        createTree, h4, hv4, createCommit, h5, hv5]
  | ok newCommit =>
  obtain ⟨b, b', hb, hb'⟩ :=
    hupd (Request.refUpdate p.repo p.branch newCommit none token) rfl
  simp [commitSolutionFiles, htok, hemp, getLatestCommitSHA, h1, hv1, hbl, hblc, h3, hv3,
    createTree, h4, hv4, createCommit, h5, hv5, updateRef, hb, hb']


/-- Looking up the problem name after a stats write finds the written
record. -/
theorem setStat_lookup (l : List (String × StatsRecord)) (k : String) (v : StatsRecord) :
    (setStat l k v).lookup k = some v := by
  simp [setStat, List.lookup]

/-- Every request any run ever issues is one of the six endpoint shapes
the code builds, always with the stored token; in particular every
blob-create body holds the encoded content of an input file and every
ref-update body lacks the `force` key. -/
theorem trace_mem_cases (o : Oracle) (st : Storage) (p : Params) :
    ∀ r ∈ (commitSolutionFiles o st p).trace, ∃ token, st.leethub_token = some token ∧
      (r = Request.refRead p.repo p.branch token ∨
       (∃ f ∈ p.files, r = Request.blobCreate p.repo (encodeContent f.content) "base64" token) ∨
       (∃ tip, r = Request.commitRead p.repo tip token) ∨
       (∃ bt entries, r = Request.treeCreate p.repo bt entries token) ∨
       (∃ t parents, r = Request.commitCreate p.repo p.commitMsg t parents token) ∨
       (∃ sha, r = Request.refUpdate p.repo p.branch sha none token)) := by
  cases htok : st.leethub_token with
  | none => simp [commitSolutionFiles, htok]
  | some token =>
  by_cases hemp : token = ""
  · simp [commitSolutionFiles, htok, hemp]
  cases h1 : o (Request.refRead p.repo p.branch token) with
  | reject =>
      simp only [commitSolutionFiles, htok, hemp, getLatestCommitSHA, h1]
      intro r hr
      simp at hr
      exact ⟨token, rfl, .inl hr⟩
  | ok tip =>
  cases hbl : blobLoop o p.repo token p.directory p.files with
  | mk tr2 r2 =>
  have htr2 : ∀ r ∈ tr2, ∃ f ∈ p.files,
      r = Request.blobCreate p.repo (encodeContent f.content) "base64" token := by
    have := @blobLoop_trace_spec o p.repo token p.directory p.files
    rw [hbl] at this
    exact this
  cases r2 with
  | error e2 =>
      simp only [commitSolutionFiles, htok, hemp, getLatestCommitSHA, h1, hbl]
      intro r hr
      simp at hr
      rcases hr with hr | hr
      · exact ⟨token, rfl, .inl hr⟩
      · exact ⟨token, rfl, .inr (.inl (htr2 r hr))⟩
  | ok entries =>
  cases h3 : o (Request.commitRead p.repo tip token) with
  | reject =>
      simp only [commitSolutionFiles, htok, hemp, getLatestCommitSHA, h1, hbl, h3]
      intro r hr
      simp at hr
      rcases hr with hr | hr | hr
      · exact ⟨token, rfl, .inl hr⟩
      · exact ⟨token, rfl, .inr (.inl (htr2 r hr))⟩
      · exact ⟨token, rfl, .inr (.inr (.inl ⟨tip, hr⟩))⟩
  | ok baseTree =>
  cases h4 : o (Request.treeCreate p.repo baseTree entries token) with
  | reject =>
      simp only [commitSolutionFiles, htok, hemp, getLatestCommitSHA, h1, hbl, h3,
        createTree, h4]
      intro r hr
      simp at hr
      rcases hr with hr | hr | hr | hr
      · exact ⟨token, rfl, .inl hr⟩
      · exact ⟨token, rfl, .inr (.inl (htr2 r hr))⟩
      · exact ⟨token, rfl, .inr (.inr (.inl ⟨tip, hr⟩))⟩
      · exact ⟨token, rfl, .inr (.inr (.inr (.inl ⟨baseTree, entries, hr⟩)))⟩
  | ok newTree =>
  cases h5 : o (Request.commitCreate p.repo p.commitMsg newTree [tip] token) with
  | reject =>
      simp only [commitSolutionFiles, htok, hemp, getLatestCommitSHA, h1, hbl, h3,
        createTree, h4, createCommit, h5]
      intro r hr
      simp at hr
      rcases hr with hr | hr | hr | hr | hr
      · exact ⟨token, rfl, .inl hr⟩
      · exact ⟨token, rfl, .inr (.inl (htr2 r hr))⟩
      · exact ⟨token, rfl, .inr (.inr (.inl ⟨tip, hr⟩))⟩
      · exact ⟨token, rfl, .inr (.inr (.inr (.inl ⟨baseTree, entries, hr⟩)))⟩
      · exact ⟨token, rfl, .inr (.inr (.inr (.inr (.inl ⟨newTree, [tip], hr⟩))))⟩
  | ok newCommit =>
  have hfin : ∀ r ∈ (commitSolutionFiles o st p).trace,
      r ∈ Request.refRead p.repo p.branch token ::
        (tr2 ++ [Request.commitRead p.repo tip token,
          Request.treeCreate p.repo baseTree entries token,
          Request.commitCreate p.repo p.commitMsg newTree [tip] token,
          Request.refUpdate p.repo p.branch newCommit none token]) := by
    cases h6 : o (Request.refUpdate p.repo p.branch newCommit none token) with
    | reject =>
        simp [commitSolutionFiles, htok, hemp, getLatestCommitSHA, h1, hbl, h3,
          createTree, h4, createCommit, h5, updateRef, h6]
    | ok r0 =>
        simp [commitSolutionFiles, htok, hemp, getLatestCommitSHA, h1, hbl, h3,
          createTree, h4, createCommit, h5, updateRef, h6]
  intro r hr
  have hr' := hfin r hr
  simp at hr'
  rcases hr' with hr' | hr' | hr' | hr' | hr' | hr'
  · exact ⟨token, rfl, .inl hr'⟩
  · exact ⟨token, rfl, .inr (.inl (htr2 r hr'))⟩
  · exact ⟨token, rfl, .inr (.inr (.inl ⟨tip, hr'⟩))⟩
  · exact ⟨token, rfl, .inr (.inr (.inr (.inl ⟨baseTree, entries, hr'⟩)))⟩
  · exact ⟨token, rfl, .inr (.inr (.inr (.inr (.inl ⟨newTree, [tip], hr'⟩))))⟩
  · exact ⟨token, rfl, .inr (.inr (.inr (.inr (.inr ⟨newCommit, hr'⟩))))⟩

/-- C2: if the token read from local storage under `leethub_token` is
absent, `commitSolutionFiles` fails with the missing-credential error and
issues zero network calls before failing (its trace is empty and the
storage is untouched). -/
theorem claim_C2_missing_token (o : Oracle) (st : Storage) (p : Params)
    (h : st.leethub_token = none) :
    commitSolutionFiles o st p =
      { result := .error .missingToken, trace := [], storage := st } := by
  simp [commitSolutionFiles, h]

/-- Witness for C2 at a concrete storage with the token key absent. -/
theorem claim_C2_missing_token_witness :
    ({ leethub_token := none, stats := [] } : Storage).leethub_token = none ∧
    commitSolutionFiles demoOracle { leethub_token := none, stats := [] } demoParams =
      { result := .error .missingToken, trace := [],
        storage := { leethub_token := none, stats := [] } } :=
  ⟨rfl, claim_C2_missing_token demoOracle { leethub_token := none, stats := [] } demoParams rfl⟩

/-- C10: the missing-credential check is a falsiness test, so a stored
empty-string token fails exactly like an absent key: same error, zero
network calls, identical result and trace. -/
theorem claim_C10_empty_token_falsy (o : Oracle) (st : Storage) (p : Params) :
    (commitSolutionFiles o { st with leethub_token := some "" } p).result =
      .error .missingToken ∧
    (commitSolutionFiles o { st with leethub_token := some "" } p).trace = [] ∧
    (commitSolutionFiles o { st with leethub_token := some "" } p).result =
      (commitSolutionFiles o { st with leethub_token := none } p).result ∧
    (commitSolutionFiles o { st with leethub_token := some "" } p).trace =
      (commitSolutionFiles o { st with leethub_token := none } p).trace := by
  refine ⟨?_, ?_, ?_, ?_⟩ <;> simp [commitSolutionFiles]

/-- C9: the difficulty label has no effect on any observable behaviour:
two inputs differing only in `difficulty` produce identical runs —
same requests, same result, same storage. -/
theorem claim_C9_difficulty_noninterference (o : Oracle) (st : Storage) (p : Params)
    (d1 d2 : String) :
    commitSolutionFiles o st { p with difficulty := d1 } =
      commitSolutionFiles o st { p with difficulty := d2 } := rfl

/-- C7: after a successful run for problem name `p.problemName`, the
persisted stats record for that problem has `lastCommitSha` equal to the
returned commit SHA. -/
theorem claim_C7_stats_lastCommitSha {o : Oracle} {st : Storage} {p : Params} {sha : String}
    (h : (commitSolutionFiles o st p).result = .ok sha) :
    ∃ record, ((commitSolutionFiles o st p).storage.stats).lookup p.problemName =
      some record ∧ record.lastCommitSha = some sha := by
  obtain ⟨token, tip, baseTree, newTree, _, _, _, _, _, _, _, _, _, hstore⟩ := run_ok_spec h
  rw [hstore]
  exact ⟨_, setStat_lookup _ _ _, rfl⟩

/-- Witness for C7 on the worked scenario. -/
theorem claim_C7_stats_witness :
    (commitSolutionFiles demoOracle demoStorage demoParams).result = .ok "newcommitsha" ∧
    ∃ record, ((commitSolutionFiles demoOracle demoStorage demoParams).storage.stats).lookup
      demoParams.problemName = some record ∧ record.lastCommitSha = some "newcommitsha" :=
  ⟨by decide, @claim_C7_stats_lastCommitSha demoOracle demoStorage demoParams "newcommitsha" (by decide)⟩

/-- C3: a successful run's trace is exactly one ref-read, then one
blob-create per input file in input-list order, then one commit-read, one
tree-create, one commit-create and one ref-update, in that order; in
particular the blob-creates of the trace are exactly the per-file ones. -/
theorem claim_C3_request_order {o : Oracle} {st : Storage} {p : Params} {sha : String}
    (h : (commitSolutionFiles o st p).result = .ok sha) :
    ∃ token tip baseTree newTree,
      st.leethub_token = some token ∧
      (commitSolutionFiles o st p).trace =
        Request.refRead p.repo p.branch token ::
        (p.files.map (fun f =>
          Request.blobCreate p.repo (encodeContent f.content) "base64" token) ++
         [Request.commitRead p.repo tip token,
          Request.treeCreate p.repo baseTree (entriesOf o p token) token,
          Request.commitCreate p.repo p.commitMsg newTree [tip] token,
          Request.refUpdate p.repo p.branch sha none token]) ∧
      (commitSolutionFiles o st p).trace.filter (fun r => r.isBlobCreate) =
        p.files.map (fun f =>
          Request.blobCreate p.repo (encodeContent f.content) "base64" token) := by
  obtain ⟨token, tip, baseTree, newTree, htok, _, _, _, _, _, _, _, htrace, _⟩ := run_ok_spec h
  refine ⟨token, tip, baseTree, newTree, htok, htrace, ?_⟩
  rw [htrace]
  simp [List.filter_append, Request.isBlobCreate, List.filter_map, Function.comp_def]

/-- Witness for C3 on the worked scenario. -/
theorem claim_C3_request_order_witness :
    (commitSolutionFiles demoOracle demoStorage demoParams).result = .ok "newcommitsha" ∧
    ∃ token tip baseTree newTree,
      demoStorage.leethub_token = some token ∧
      (commitSolutionFiles demoOracle demoStorage demoParams).trace =
        Request.refRead demoParams.repo demoParams.branch token ::
        (demoParams.files.map (fun f =>
          Request.blobCreate demoParams.repo (encodeContent f.content) "base64" token) ++
         [Request.commitRead demoParams.repo tip token,
          Request.treeCreate demoParams.repo baseTree (entriesOf demoOracle demoParams token)
            token,
          Request.commitCreate demoParams.repo demoParams.commitMsg newTree [tip] token,
          Request.refUpdate demoParams.repo demoParams.branch "newcommitsha" none token]) ∧
      (commitSolutionFiles demoOracle demoStorage demoParams).trace.filter
          (fun r => r.isBlobCreate) =
        demoParams.files.map (fun f =>
          Request.blobCreate demoParams.repo (encodeContent f.content) "base64" token) :=
  ⟨by decide, @claim_C3_request_order demoOracle demoStorage demoParams "newcommitsha" (by decide)⟩

/-- C4: on every successful run the commit-create body's `parents` field
is the single-element list holding the branch tip SHA obtained from the
initial ref-read; the trace contains exactly one ref-read and it is the
very first request, so the tip is not re-read later. -/
theorem claim_C4_single_parent_tip {o : Oracle} {st : Storage} {p : Params} {sha : String}
    (h : (commitSolutionFiles o st p).result = .ok sha) :
    ∃ token newTree,
      st.leethub_token = some token ∧
      (commitSolutionFiles o st p).trace.filter (fun r => r.isCommitCreate) =
        [Request.commitCreate p.repo p.commitMsg newTree
          [(o (Request.refRead p.repo p.branch token)).sha] token] ∧
      (commitSolutionFiles o st p).trace.filter (fun r => r.isRefRead) =
        [Request.refRead p.repo p.branch token] ∧
      (commitSolutionFiles o st p).trace.head? =
        some (Request.refRead p.repo p.branch token) := by
  obtain ⟨token, tip, baseTree, newTree, htok, _, h1, _, _, _, _, _, htrace, _⟩ :=
    run_ok_spec h
  have htip : (o (Request.refRead p.repo p.branch token)).sha = tip := by rw [h1]; rfl
  refine ⟨token, newTree, htok, ?_, ?_, ?_⟩
  · rw [htrace, htip]
    simp [List.filter_append, Request.isCommitCreate, List.filter_map, Function.comp_def]
  · rw [htrace]
    simp [List.filter_append, Request.isRefRead, List.filter_map, Function.comp_def]
  · rw [htrace]; rfl

/-- Witness for C4 on the worked scenario. -/
theorem claim_C4_single_parent_tip_witness :
    (commitSolutionFiles demoOracle demoStorage demoParams).result = .ok "newcommitsha" ∧
    ∃ token newTree,
      demoStorage.leethub_token = some token ∧
      (commitSolutionFiles demoOracle demoStorage demoParams).trace.filter
          (fun r => r.isCommitCreate) =
        [Request.commitCreate demoParams.repo demoParams.commitMsg newTree
          [(demoOracle (Request.refRead demoParams.repo demoParams.branch token)).sha] token] ∧
      (commitSolutionFiles demoOracle demoStorage demoParams).trace.filter
          (fun r => r.isRefRead) =
        [Request.refRead demoParams.repo demoParams.branch token] ∧
      (commitSolutionFiles demoOracle demoStorage demoParams).trace.head? =
        some (Request.refRead demoParams.repo demoParams.branch token) :=
  ⟨by decide, @claim_C4_single_parent_tip demoOracle demoStorage demoParams "newcommitsha" (by decide)⟩

/-- C1: on every successful run, the tree-create request carries exactly
one entry per input file — path `directory + "/" + filename`, mode
`"100644"`, type `"blob"`, and the blob SHA the remote returned for that
file's blob-create request, whose payload is the base64 encoding of the
file's content (so decoding the payload round-trips to the content); the
function's return value is the SHA the remote returned for the
commit-create request over that tree. -/
theorem claim_C1_tree_and_result {o : Oracle} {st : Storage} {p : Params} {sha : String}
    (h : (commitSolutionFiles o st p).result = .ok sha) :
    ∃ token tip baseTree newTree,
      st.leethub_token = some token ∧
      entriesOf o p token = p.files.map (fun f =>
        { path := p.directory ++ "/" ++ f.filename, mode := "100644", type := "blob",
          sha := (o (Request.blobCreate p.repo (encodeContent f.content) "base64"
            token)).sha }) ∧
      (commitSolutionFiles o st p).trace.filter (fun r => r.isTreeCreate) =
        [Request.treeCreate p.repo baseTree (entriesOf o p token) token] ∧
      (∀ f ∈ p.files, ∃ s,
        o (Request.blobCreate p.repo (encodeContent f.content) "base64" token) = .ok s ∧
        Request.blobCreate p.repo (encodeContent f.content) "base64" token ∈
          (commitSolutionFiles o st p).trace ∧
        decodeContent (encodeContent f.content) = some f.content) ∧
      o (Request.treeCreate p.repo baseTree (entriesOf o p token) token) = .ok newTree ∧
      o (Request.commitCreate p.repo p.commitMsg newTree [tip] token) = .ok sha := by
  obtain ⟨token, tip, baseTree, newTree, htok, _, _, hall, _, h4, h5, _, htrace, _⟩ :=
    run_ok_spec h
  refine ⟨token, tip, baseTree, newTree, htok, rfl, ?_, ?_, h4, h5⟩
  · rw [htrace]
    simp [List.filter_append, Request.isTreeCreate, List.filter_map, Function.comp_def]
  · intro f hf
    obtain ⟨s, hs⟩ := hall f hf
    refine ⟨s, hs, ?_, decodeContent_encodeContent f.content⟩
    rw [htrace]
    simp only [List.mem_cons, List.mem_append, List.mem_map]
    exact .inr (.inl ⟨f, hf, rfl⟩)

/-- Witness for C1 on the worked scenario. -/
theorem claim_C1_tree_and_result_witness :
    (commitSolutionFiles demoOracle demoStorage demoParams).result = .ok "newcommitsha" ∧
    ∃ token tip baseTree newTree,
      demoStorage.leethub_token = some token ∧
      entriesOf demoOracle demoParams token = demoParams.files.map (fun f =>
        { path := demoParams.directory ++ "/" ++ f.filename, mode := "100644", type := "blob",
          sha := (demoOracle (Request.blobCreate demoParams.repo (encodeContent f.content)
            "base64" token)).sha }) ∧
      (commitSolutionFiles demoOracle demoStorage demoParams).trace.filter
          (fun r => r.isTreeCreate) =
        [Request.treeCreate demoParams.repo baseTree (entriesOf demoOracle demoParams token)
          token] ∧
      (∀ f ∈ demoParams.files, ∃ s,
        demoOracle (Request.blobCreate demoParams.repo (encodeContent f.content) "base64"
          token) = .ok s ∧
        Request.blobCreate demoParams.repo (encodeContent f.content) "base64" token ∈
          (commitSolutionFiles demoOracle demoStorage demoParams).trace ∧
        decodeContent (encodeContent f.content) = some f.content) ∧
      demoOracle (Request.treeCreate demoParams.repo baseTree
        (entriesOf demoOracle demoParams token) token) = .ok newTree ∧
      demoOracle (Request.commitCreate demoParams.repo demoParams.commitMsg newTree [tip]
        token) = .ok "newcommitsha" :=
  ⟨by decide, @claim_C1_tree_and_result demoOracle demoStorage demoParams "newcommitsha"
    (by decide)⟩

/-- C5 as stated is falsified when the rejecting fetch is the ref-update
itself: the run propagates the failure, yet a ref-update request was
issued (it is in the trace). -/
theorem claim_C5_counterexample :
    (commitSolutionFiles rejectRefUpdateOracle demoStorage demoParams).result =
      .error .fetchRejected ∧
    ∃ r ∈ (commitSolutionFiles rejectRefUpdateOracle demoStorage demoParams).trace,
      r.isRefUpdate = true := by
  refine ⟨by decide, Request.refUpdate "o/r" "main" "newcommitsha" none "tok", by decide, rfl⟩

/-- C5 (amended): on every failing run the storage is untouched and no
ref-update request was issued — unless the rejecting fetch was the
ref-update itself, in which case it is the final request of the trace and
its own fetch rejected, so the failure still propagates after it. -/
theorem claim_C5_failure_no_visible_commit {o : Oracle} {st : Storage} {p : Params}
    {e : JsError} (h : (commitSolutionFiles o st p).result = .error e) :
    (commitSolutionFiles o st p).storage = st ∧
    ((∀ r ∈ (commitSolutionFiles o st p).trace, r.isRefUpdate = false) ∨
     ∃ pre req, (commitSolutionFiles o st p).trace = pre ++ [req] ∧
       req.isRefUpdate = true ∧ (∀ r ∈ pre, r.isRefUpdate = false) ∧ o req = .reject) :=
  run_error_spec h

/-- Witness for the amended C5 at a remote whose tree-create rejects. -/
theorem claim_C5_failure_witness :
    (commitSolutionFiles rejectTreeOracle demoStorage demoParams).storage = demoStorage ∧
    ((∀ r ∈ (commitSolutionFiles rejectTreeOracle demoStorage demoParams).trace,
        r.isRefUpdate = false) ∨
     ∃ pre req, (commitSolutionFiles rejectTreeOracle demoStorage demoParams).trace =
        pre ++ [req] ∧
       req.isRefUpdate = true ∧ (∀ r ∈ pre, r.isRefUpdate = false) ∧
       rejectTreeOracle req = .reject) :=
  @claim_C5_failure_no_visible_commit rejectTreeOracle demoStorage demoParams
    JsError.fetchRejected (by decide)

/-- C6: the ref-update body never carries a `force` key; the ref-update
response is never inspected, so replacing every resolved ref-update
response body (e.g. by a rejection report) leaves the whole run — result,
trace and storage — unchanged, and a successful run still records the
returned SHA in the stats. -/
theorem claim_C6_refupdate_silent (o o' : Oracle) (st : Storage) (p : Params)
    (hagree : ∀ r, r.isRefUpdate = false → o' r = o r)
    (hupd : ∀ r, r.isRefUpdate = true → ∃ b b', o r = .ok b ∧ o' r = .ok b') :
    commitSolutionFiles o' st p = commitSolutionFiles o st p ∧
    (∀ r ∈ (commitSolutionFiles o st p).trace, r.forceFlag = none) ∧
    (∀ sha, (commitSolutionFiles o' st p).result = .ok sha →
      ∃ record, ((commitSolutionFiles o' st p).storage.stats).lookup p.problemName =
        some record ∧ record.lastCommitSha = some sha) := by
  refine ⟨run_congr st p hagree hupd, ?_, ?_⟩
  · intro r hr
    obtain ⟨token, _, hcases⟩ := trace_mem_cases o st p r hr
    rcases hcases with rfl | ⟨f, _, rfl⟩ | ⟨tip, rfl⟩ | ⟨bt, es, rfl⟩ | ⟨t, ps, rfl⟩ |
      ⟨s, rfl⟩ <;> rfl
  · intro sha hsha
    obtain ⟨token, tip, baseTree, newTree, _, _, _, _, _, _, _, _, _, hstore⟩ :=
      run_ok_spec hsha
    rw [hstore]
    exact ⟨_, setStat_lookup _ _ _, rfl⟩

/-- Witness for C6: a remote answering the ref-update with a rejection
report behaves identically to one answering with a success body. -/
theorem claim_C6_refupdate_silent_witness :
    commitSolutionFiles refUpdateRejectedBodyOracle demoStorage demoParams =
      commitSolutionFiles demoOracle demoStorage demoParams ∧
    (∀ r ∈ (commitSolutionFiles demoOracle demoStorage demoParams).trace,
      r.forceFlag = none) ∧
    (∀ sha, (commitSolutionFiles refUpdateRejectedBodyOracle demoStorage demoParams).result =
        .ok sha →
      ∃ record, ((commitSolutionFiles refUpdateRejectedBodyOracle demoStorage
          demoParams).storage.stats).lookup demoParams.problemName =
        some record ∧ record.lastCommitSha = some sha) :=
  claim_C6_refupdate_silent demoOracle refUpdateRejectedBodyOracle demoStorage demoParams
    (by
      intro r hr
      cases r <;> simp [Request.isRefUpdate] at hr ⊢ <;> rfl)
    (by
      intro r hr
      cases r <;> simp [Request.isRefUpdate] at hr
      exact ⟨"updated", "422 update is not a fast forward", rfl, rfl⟩)

/-- C8 as stated is falsified at a direct call: `createBlob` passes its
content argument through verbatim, so the body's `content` field is the
argument itself, not its base64 encoding. -/
theorem claim_C8_counterexample :
    (createBlob demoOracle "o/r" "A" "t").1 = [Request.blobCreate "o/r" "A" "base64" "t"] ∧
    encodeContent "A" ≠ "A" := by
  refine ⟨rfl, by decide⟩

/-- C8 (amended): `createBlob` sends its content argument verbatim with
encoding field `"base64"`; the base64 encoding is applied by the caller
(`commitSolutionFiles`), so every blob-create request of a run carries
the base64 encoding of some input file's content as its `content` body
field. -/
theorem claim_C8_blob_encoding :
    (∀ (o : Oracle) (repo content token : String),
      (createBlob o repo content token).1 =
        [Request.blobCreate repo content "base64" token]) ∧
    (∀ (o : Oracle) (st : Storage) (p : Params), ∀ r ∈ (commitSolutionFiles o st p).trace,
      r.isBlobCreate = true →
      ∃ f ∈ p.files, r.blobContent = some (encodeContent f.content)) := by
  constructor
  · intro o repo content token
    cases hv : o (Request.blobCreate repo content "base64" token) <;>
      simp [createBlob, hv]
  · intro o st p r hr hblob
    obtain ⟨token, _, hcases⟩ := trace_mem_cases o st p r hr
    rcases hcases with rfl | ⟨f, hf, rfl⟩ | ⟨tip, rfl⟩ | ⟨bt, es, rfl⟩ | ⟨t, ps, rfl⟩ |
      ⟨s, rfl⟩
    · simp [Request.isBlobCreate] at hblob
    · exact ⟨f, hf, rfl⟩
    · simp [Request.isBlobCreate] at hblob
    · simp [Request.isBlobCreate] at hblob
    · simp [Request.isBlobCreate] at hblob
    · simp [Request.isBlobCreate] at hblob

/-- Witness for the amended C8 on concrete inputs. -/
theorem claim_C8_blob_encoding_witness :
    (createBlob demoOracle "o/r" "QQ==" "t").1 =
      [Request.blobCreate "o/r" "QQ==" "base64" "t"] ∧
    ∃ f ∈ demoParams.files,
      (Request.blobCreate "o/r" (encodeContent "# Hi") "base64" "tok").blobContent =
        some (encodeContent f.content) :=
  ⟨claim_C8_blob_encoding.1 demoOracle "o/r" "QQ==" "t",
   claim_C8_blob_encoding.2 demoOracle demoStorage demoParams
     (Request.blobCreate "o/r" (encodeContent "# Hi") "base64" "tok") (by decide) rfl⟩
